import Mathlib

/-!
# FieldFlow ESG reporting front-end — verification development

Shallow embedding of the FieldFlow reporting pages:
* the event-confirmation matching routine `waitForMatchingEvent`
  (both the original in-component version and the `useKpiEventWatcher`
  hook version of `src/app/for-companies/page.tsx`),
* the transaction-payload encoding of `handleSubmit` and of the
  refactored `useKpiSubmission` hook,
* the sequential submission loop,
* the investor page's history loader (`KpiHistoryGraph.fetchHistoricalData`)
  and its address-input partitioning.

Hex strings (addresses, bytes32 CIDs, event topics) are modelled as plain
strings; `toLowerCase()` in the source becomes `jsToLower`.
`ethers.BigNumber` values are modelled as `Int`; JavaScript numeric form
values are modelled as `Rat`, with `Math.round` as `jsRound`.
-/

namespace FieldFlow

/-- Hex strings (addresses, bytes32 values, topics) are modelled as strings. -/
abbrev Hex := String

/-- The all-zero bytes32 CID used as the default `metadataCid`
(`"0x000...0"` with 64 zero digits in the source). -/
def zeroCid : Hex := "0x0000000000000000000000000000000000000000000000000000000000000000"

/-- JavaScript `toLowerCase()`, applied character by character. -/
def jsToLower (s : String) : String := String.mk (s.data.map Char.toLower)

/-- The expected tuple passed to `waitForMatchingEvent`: the submitted
`(ownerAddress, kpiTypeId, reportingYear, value, metadataCid)` values. -/
structure ExpectedTuple where
  ownerAddress : Hex
  kpiTypeId : Int
  reportingYear : Int
  value : Int
  metadataCid : Hex
deriving DecidableEq, Repr

/-- The result of `contractInterface.parseLog(event).args` cast to
`KpiVersionSubmittedEventData`.  Every field may be `undefined` at runtime
(the cast is unchecked), which the code guards against; `undefined` is
modelled as `none`. -/
structure ParsedEvent where
  kpiOwner : Option Hex
  kpiTypeId : Option Int
  reportingYear : Option Int
  value : Option Int
  metadataCid : Option Hex
  submissionTimestamp : Option Int
  version : Option Int
deriving DecidableEq, Repr

/-- The five fields of a parsed event once the completeness guard has
passed. -/
structure EventData where
  kpiOwner : Hex
  kpiTypeId : Int
  reportingYear : Int
  value : Int
  metadataCid : Hex
deriving DecidableEq, Repr

/-- The completeness guard of `waitForMatchingEvent`:
`!parsedEventData || !parsedEventData.kpiOwner || parsedEventData.kpiTypeId
=== undefined || ...` — the owner must be present and truthy (a non-empty
string), the four remaining checked fields must not be `undefined`.
Returns the extracted five-field record when the guard passes. -/
def extractComplete (p : ParsedEvent) : Option EventData :=
  match p.kpiOwner, p.kpiTypeId, p.reportingYear, p.value, p.metadataCid with
  | some o, some k, some y, some v, some c =>
      if o.isEmpty then none else some ⟨o, k, y, v, c⟩
  | _, _, _, _, _ => none

/-- The five-way comparison of the original `waitForMatchingEvent`:
`ownerMatch && kpiTypeMatch && yearMatch && valueMatch && cidMatch`, with
the owner and CID compared after `toLowerCase()` and the numeric fields
compared with `BigNumber.eq`. -/
def tupleMatches (exp : ExpectedTuple) (d : EventData) : Bool :=
  (jsToLower d.kpiOwner == jsToLower exp.ownerAddress) &&
  (d.kpiTypeId == exp.kpiTypeId) &&
  (d.reportingYear == exp.reportingYear) &&
  (d.value == exp.value) &&
  (jsToLower d.metadataCid == jsToLower exp.metadataCid)

/-- An incoming raw event log: either one that `contractInterface.parseLog`
throws on (ABI decoding failure), or one that parses to `p`. -/
inductive RawLog where
  | unparseable
  | parsed (p : ParsedEvent)
deriving DecidableEq, Repr

/-- The `try { parseLog } catch { continue }` step: `none` models the
thrown parse error. -/
def parseLog : RawLog → Option ParsedEvent
  | .unparseable => none
  | .parsed p => some p

/-- What a single log contributes in the `onEvents` loop of the original
`waitForMatchingEvent`: `some p` exactly when the log parses, passes the
completeness guard and all five comparisons hold, in which case the promise
is resolved with `p`. -/
def resolveCandidate (exp : ExpectedTuple) (l : RawLog) : Option ParsedEvent :=
  match parseLog l with
  | none => none
  | some p =>
    match extractComplete p with
    | none => none
    | some d => if tupleMatches exp d then some p else none

/-- The `onEvents` callback body: iterate over the received batch, `continue`
on parse failure, incomplete data or a failed comparison, and resolve with
the first matching log. -/
def processBatch (exp : ExpectedTuple) : List RawLog → Option ParsedEvent
  | [] => none
  | l :: ls =>
    match parseLog l with
    | none => processBatch exp ls
    | some p =>
      match extractComplete p with
      | none => processBatch exp ls
      | some d => if tupleMatches exp d then some p else processBatch exp ls

/-- Errors with which the `waitForMatchingEvent` promise can reject after
the subscription is active. -/
inductive WatchError where
  | timeoutErr (timeoutMs : Nat) (kpiTypeId reportingYear : Int)
  | watcherErr (msg : String)
deriving DecidableEq, Repr

/-- The timeout rejection message built in the `setTimeout` callback. -/
def timeoutMessage (timeoutMs : Nat) (kpiTypeId reportingYear : Int) : String :=
  "Timeout (" ++ toString (timeoutMs / 1000) ++
  "s) waiting for KpiVersionSubmitted event for KPI Type ID: " ++
  toString kpiTypeId ++ ", Year: " ++ toString reportingYear

/-- A settlement of the promise returned by `waitForMatchingEvent`. -/
inductive Settlement where
  | resolved (p : ParsedEvent)
  | rejected (e : WatchError)
deriving DecidableEq, Repr

/-- The asynchronous inputs that can reach the watcher once the
subscription and the timer are set up: an `onEvents` batch, an `onError`
callback, or the timeout timer firing. -/
inductive WatchInput where
  | batch (logs : List RawLog)
  | watcherError (msg : String)
  | timerFire
deriving DecidableEq, Repr

/-- State of one `waitForMatchingEvent` call: whether (and how) its promise
has settled, whether `unwatch()` has been called, and whether
`clearTimeout` has been called.  `cleanup()` in the source sets the last
two together just before every `resolve`/`reject`. -/
structure WatchState where
  settled : Option Settlement
  unwatchCalled : Bool
  timerCleared : Bool
deriving DecidableEq, Repr

/-- The state before any asynchronous input arrives: promise pending,
subscription active, timer armed. -/
def initialWatchState : WatchState := ⟨none, false, false⟩

/-- One asynchronous input hitting the watcher.  A settled promise ignores
further inputs (`cleanup` has deregistered the subscription and cleared the
timer, and a promise settles at most once). -/
def stepWatch (exp : ExpectedTuple) (timeoutMs : Nat) (s : WatchState)
    (i : WatchInput) : WatchState :=
  if s.settled.isSome then s
  else
    match i with
    | .batch logs =>
      match processBatch exp logs with
      | some p => ⟨some (.resolved p), true, true⟩
      | none => s
    | .watcherError msg => ⟨some (.rejected (.watcherErr msg)), true, true⟩
    | .timerFire =>
      ⟨some (.rejected (.timeoutErr timeoutMs exp.kpiTypeId exp.reportingYear)),
       true, true⟩

/-- Run one `waitForMatchingEvent` call over a sequence of asynchronous
inputs, in arrival order. -/
def runWatch (exp : ExpectedTuple) (timeoutMs : Nat)
    (inputs : List WatchInput) : WatchState :=
  inputs.foldl (stepWatch exp timeoutMs) initialWatchState

/-- The default `timeoutMs` of `waitForMatchingEvent` (90000 ms = 90 s). -/
def defaultTimeoutMs : Nat := 90000

/-- An input that does not settle the promise: a batch none of whose logs
is a resolve candidate. -/
def inertInput (exp : ExpectedTuple) : WatchInput → Bool
  | .batch logs => (processBatch exp logs).isNone
  | _ => false

/-- The `ethers.utils.hexZeroPad` call of the hook version: left-pad the
hex body of `s` with zero digits to `len` bytes. -/
def hexZeroPad (s : Hex) (len : Nat) : Hex :=
  let body := if s.startsWith "0x" then s.drop 2 else s
  "0x" ++ String.mk (List.replicate (2 * len - body.length) '0') ++ body

/-- The owner comparison of the hook version (`useKpiEventWatcher`): the
received `topics[1]` lower-cased against the expected address lower-cased,
zero-padded to 32 bytes and lower-cased again. -/
def hookOwnerMatch (ownerAddress : Hex) (receivedTopic : Hex) : Bool :=
  jsToLower receivedTopic == jsToLower (hexZeroPad (jsToLower ownerAddress) 32)

/-- The five-way comparison of the hook version, where `d.kpiOwner` holds
the raw 32-byte `topics[1]` value. -/
def hookTupleMatches (exp : ExpectedTuple) (d : EventData) : Bool :=
  hookOwnerMatch exp.ownerAddress d.kpiOwner &&
  (d.kpiTypeId == exp.kpiTypeId) &&
  (d.reportingYear == exp.reportingYear) &&
  (d.value == exp.value) &&
  (jsToLower d.metadataCid == jsToLower exp.metadataCid)

/-! ## Submission payload encoding (`handleSubmit` and `useKpiSubmission`) -/

/-- JavaScript `Math.round`: round half toward positive infinity,
`⌊q + 1/2⌋`, written with the executable `Rat.floor`. -/
def jsRound (q : ℚ) : Int := (q + 1 / 2).floor

/-- The `kpiIdToNumericIdMap` of both versions of the companies page: only
`GHGEmissionsScopeOneAndTwoTotal` maps to a numeric id (1). -/
def kpiIdToNumericIdMap (kpiId : String) : Option Nat :=
  if kpiId = "GHGEmissionsScopeOneAndTwoTotal" then some 1 else none

/-- The KPI id of the single form field of the one rendered category. -/
def ghgTotalKpiId : String := "GHGEmissionsScopeOneAndTwoTotal"

/-- A prepared `submitKpiVersion` transaction payload, as recorded in the
`txPayloads` array: `(kpiTypeId, reportingYear, value, metadataCid)`. -/
structure TxPayload where
  kpiTypeId : Int
  reportingYear : Int
  value : Int
  metadataCid : Hex
deriving DecidableEq, Repr

/-- The payloads the original `handleSubmit` prepares for the one numeric
KPI field.  `cur`/`prior` are the parsed form values (`none` models an
empty/whitespace field or a `parseFloat` result of `NaN`, both of which are
skipped).  A present value `v` is encoded as
`BigNumber.from(Math.round(v * 100))`, year fields as entered, CID the
all-zero bytes32. -/
def handleSubmitPayloads (year : Int) (cur prior : Option ℚ) : List TxPayload :=
  match kpiIdToNumericIdMap ghgTotalKpiId with
  | none => []
  | some numericKpiTypeId =>
    (match cur with
     | some v => [⟨numericKpiTypeId, year, jsRound (v * 100), zeroCid⟩]
     | none => []) ++
    (match prior with
     | some v => [⟨numericKpiTypeId, year - 1, jsRound (v * 100), zeroCid⟩]
     | none => [])

/-- The payloads the refactored `useKpiSubmission.submitKpiData` prepares
for the same inputs: a present value `v` is encoded as
`BigNumber.from(Math.round(v))` — without the `* 100` scaling of the
original. -/
def submitKpiDataPayloads (year : Int) (cur prior : Option ℚ) : List TxPayload :=
  match kpiIdToNumericIdMap ghgTotalKpiId with
  | none => []
  | some numericKpiTypeId =>
    (match cur with
     | some v => [⟨numericKpiTypeId, year, jsRound v, zeroCid⟩]
     | none => []) ++
    (match prior with
     | some v => [⟨numericKpiTypeId, year - 1, jsRound v, zeroCid⟩]
     | none => [])

/-! ## Submission guards (`handleSubmit` preconditions) -/

/-- JavaScript falsiness for an optional string (`!userAddress`): `null`
or the empty string. -/
def strFalsy : Option String → Bool
  | none => true
  | some s => s.isEmpty

/-- The precondition guard at the top of the original `handleSubmit`:
returns the error status set before the early `return`, or `none` when the
submission proceeds.  `!selectedReportingYear || year < 1900 || year >
2200` makes year 0 (falsy) and any year outside `[1900, 2200]` an error. -/
def handleSubmitGuard (userAddress : Option String) (year : Int) : Option String :=
  if strFalsy userAddress then
    some "Error: Please connect your wallet first to submit data."
  else if year = 0 ∨ year < 1900 ∨ year > 2200 then
    some "Error: Please enter a valid Reporting Year."
  else
    none

/-- The precondition guard of the hook-based `handleSubmit`, which
additionally requires the contract instance to be initialized. -/
def handleSubmitGuardHook (userAddress : Option String) (year : Int)
    (contractReady : Bool) : Option String :=
  if strFalsy userAddress then
    some "Error: Please connect your wallet to submit data."
  else if year = 0 ∨ year < 1900 ∨ year > 2200 then
    some "Error: Please enter a valid reporting year."
  else if !contractReady then
    some "Error: Contract not loaded or initialized. Please wait."
  else
    none

/-- Observable outcome of one `handleSubmit` run: the final status text,
the payloads prepared for sending, and whether the form data was reset. -/
structure SubmitRun where
  status : String
  payloadsPrepared : List TxPayload
  formCleared : Bool
deriving DecidableEq, Repr

/-- The original `handleSubmit` as a run outcome.  On a failed guard it
sets the error status and returns before preparing any payload; with no
payloads it reports "no new data"; otherwise it prepares the payloads and,
when the send/confirm loop succeeds (`allTxConfirmed`), clears the form. -/
def handleSubmitRun (userAddress : Option String) (year : Int)
    (cur prior : Option ℚ) (allTxConfirmed : Bool) : SubmitRun :=
  match handleSubmitGuard userAddress year with
  | some err => ⟨err, [], false⟩
  | none =>
    let ps := handleSubmitPayloads year cur prior
    if ps.isEmpty then
      ⟨"No new data entered to submit for GHG Emission. Please enter KPI values.",
       [], false⟩
    else if allTxConfirmed then
      ⟨"Data for GHG Emission submitted successfully! Form has been cleared.",
       ps, true⟩
    else
      ⟨"Error: Transaction or event confirmation failed.", ps, false⟩

/-- The hook-based `handleSubmit` as a run outcome (guard includes the
contract-readiness check; payload building is delegated to
`submitKpiData`). -/
def handleSubmitRunHook (userAddress : Option String) (year : Int)
    (contractReady : Bool) (cur prior : Option ℚ) (allTxConfirmed : Bool) :
    SubmitRun :=
  match handleSubmitGuardHook userAddress year contractReady with
  | some err => ⟨err, [], false⟩
  | none =>
    let ps := submitKpiDataPayloads year cur prior
    if ps.isEmpty then
      ⟨"No data entered for submission.", [], false⟩
    else if allTxConfirmed then
      ⟨"Data for GHG Emission successfully submitted! Form cleared.", ps, true⟩
    else
      ⟨"Error: Transaction or event confirmation failed.", ps, false⟩

/-! ## The sequential send/confirm loop -/

/-- Outcome of processing one payload in the submission loop: the
`sendTransaction` await rejects, or it resolves and the
`waitForMatchingEvent` await rejects, or both resolve. -/
inductive StepResult where
  | sendFailed
  | confirmFailed
  | confirmed
deriving DecidableEq, Repr

/-- Observable actions of the submission loop, indexed by payload
position: sending transaction `i`, starting the event watch for `i`
(calling `waitForMatchingEvent`), and that watch settling. -/
inductive SubAction where
  | sendTx (i : Nat)
  | startWatch (i : Nat)
  | endWatch (i : Nat)
deriving DecidableEq, Repr

/-- The actions one loop iteration emits.  A send failure rejects before
any watch is created; a confirmation failure still starts and settles the
watch (a rejected `waitForMatchingEvent` promise has run `cleanup`). -/
def stepTrace (i : Nat) : StepResult → List SubAction
  | .sendFailed => [.sendTx i]
  | .confirmFailed => [.sendTx i, .startWatch i, .endWatch i]
  | .confirmed => [.sendTx i, .startWatch i, .endWatch i]

/-- The `for` loop over `txPayloads`, each iteration awaiting the send and
then the event confirmation; a thrown error aborts the remaining
payloads, so only a confirmed step continues the loop. -/
def runSubmissionLoop (i : Nat) : List StepResult → List SubAction
  | [] => []
  | .sendFailed :: _ => stepTrace i .sendFailed
  | .confirmFailed :: _ => stepTrace i .confirmFailed
  | .confirmed :: rs => stepTrace i .confirmed ++ runSubmissionLoop (i + 1) rs

/-- Contribution of one action to the number of pending event watches. -/
def watchDelta : SubAction → Int
  | .startWatch _ => 1
  | .endWatch _ => -1
  | _ => 0

/-- Number of event watches still pending after a sequence of actions. -/
def openWatches (as : List SubAction) : Int := (as.map watchDelta).sum

/-! ## Investor page: history loader -/

/-- The first year queried: `currentYear - 10`. -/
def startYear (currentYear : Int) : Int := currentYear - 10

/-- `yearsToQuery`: `Array.from({length: currentYear - startYear + 1},
(_, i) => startYear + i)`. -/
def yearsToQuery (currentYear : Int) : List Int :=
  (List.range (currentYear - startYear currentYear + 1).toNat).map
    (fun (i : Nat) => startYear currentYear + (i : Int))

/-- A read-only contract call issued by the history loader. -/
structure ReadCall where
  method : String
  address : Hex
  kpiId : Nat
  year : Int
deriving DecidableEq, Repr

/-- The reads `fetchHistoricalData` pushes: for each company address, for
each year to query, one `getLatestKpiVersion(address, kpiId, year)`. -/
def historyReadCalls (addresses : List Hex) (kpiId : Nat) (currentYear : Int) :
    List ReadCall :=
  addresses.flatMap fun a =>
    (yearsToQuery currentYear).map fun y => ⟨"getLatestKpiVersion", a, kpiId, y⟩

/-- The `KpiHistoryGraph` effect body: `fetchHistoricalData` runs only when
some passed address satisfies `isAddress`; otherwise no read is issued. -/
def kpiHistoryGraphReadCalls (isAddress : Hex → Bool) (addresses : List Hex)
    (kpiId : Nat) (currentYear : Int) : List ReadCall :=
  if addresses.any isAddress then historyReadCalls addresses kpiId currentYear
  else []

/-- The `KpiVersion` struct returned by `getLatestKpiVersion`. -/
structure KpiVersion where
  value : Int
  submissionTimestamp : Int
  metadataCid : Hex
deriving DecidableEq, Repr

/-- Outcome of one `readContract` call: resolved with a struct, resolved
with `undefined`, or rejected with an error message. -/
inductive ReadOutcome where
  | ok (k : KpiVersion)
  | missing
  | failed (msg : String)
deriving DecidableEq, Repr

/-- A data point kept for the chart. -/
structure DataPoint where
  companyAddress : Hex
  year : Int
  value : Int
  submissionTimestamp : Int
  metadataCid : Hex
deriving DecidableEq, Repr

/-- The `.then`/`.catch` handler attached to each read: the all-zero
struct is interpreted as "no data" (`none`); a defined struct yields a
point; `undefined` yields `none`; every rejection — whether or not its
message contains "No versions found for this KPI" — yields `none` (the two
catch branches differ only in logging). -/
def processReadResult (address : Hex) (year : Int) :
    ReadOutcome → Option DataPoint
  | .ok k =>
    if k.value = 0 ∧ k.submissionTimestamp = 0 ∧ k.metadataCid = zeroCid then
      none
    else
      some ⟨address, year, k.value, k.submissionTimestamp, k.metadataCid⟩
  | .missing => none
  | .failed _ => none

/-- Aggregation over all settled reads: keep the fulfilled non-null
points (`Promise.allSettled` followed by the fulfilled/non-null filter). -/
def buildHistory (results : List (Hex × Int × ReadOutcome)) : List DataPoint :=
  results.filterMap fun r => processReadResult r.1 r.2.1 r.2.2

/-! ## Investor page: address-input partitioning -/

/-- JavaScript `String.prototype.trim`: strip leading and trailing
whitespace, modelled over the character list. -/
def jsTrim (s : String) : String :=
  String.mk (((s.data.dropWhile Char.isWhitespace).reverse.dropWhile
    Char.isWhitespace).reverse)

/-- `companyAddressInput.split(',').map(trim).filter(length > 0)`, modelled
over the character list. -/
def splitAddressInput (s : String) : List String :=
  ((s.data.splitOn ',').map (fun cs => jsTrim (String.mk cs))).filter
    fun a => 0 < a.length

/-- `inputParts.filter(addr => ethers.utils.isAddress(addr))`, the
`companyAddresses` state.  `isAddress` (an external `ethers` predicate) is
a parameter. -/
def validAddresses (isAddress : String → Bool) (s : String) : List String :=
  (splitAddressInput s).filter isAddress

/-- `inputParts.filter(addr => !ethers.utils.isAddress(addr))`, the
`invalidAddresses` state. -/
def invalidAddressesOf (isAddress : String → Bool) (s : String) : List String :=
  (splitAddressInput s).filter fun a => !isAddress a

/-- The chart lines rendered by `KpiHistoryGraph`:
`companyAddresses.map(address => isAddress(address) && <Line .../>)`, i.e.
a line exactly for each passed address that satisfies `isAddress`. -/
def chartLineAddresses (isAddress : Hex → Bool) (addresses : List Hex) :
    List Hex :=
  addresses.filter isAddress

/-! ## Helper lemmas -/

/-- Sanity check: `jsRound` is the mathematical `⌊q + 1/2⌋`. -/
theorem jsRound_eq_floor (q : ℚ) : jsRound q = ⌊q + 1 / 2⌋ := by
  rw [jsRound, Rat.floor_def', ← Rat.floor_def]

/-! ## Helper lemmas: the watch state machine -/

theorem stepWatch_of_settled {exp : ExpectedTuple} {t : Nat} {s : WatchState}
    (h : s.settled.isSome) (i : WatchInput) : stepWatch exp t s i = s := by
  simp [stepWatch, h]

theorem foldl_stepWatch_of_settled {exp : ExpectedTuple} {t : Nat}
    {s : WatchState} (h : s.settled.isSome) :
    ∀ l : List WatchInput, l.foldl (stepWatch exp t) s = s
  | [] => rfl
  | i :: l => by
    rw [List.foldl_cons, stepWatch_of_settled h, foldl_stepWatch_of_settled h l]

theorem runWatch_append (exp : ExpectedTuple) (t : Nat)
    (l1 l2 : List WatchInput) :
    runWatch exp t (l1 ++ l2) = l2.foldl (stepWatch exp t) (runWatch exp t l1) :=
  List.foldl_append ..

theorem runWatch_settled_mono {exp : ExpectedTuple} {t : Nat}
    {l1 : List WatchInput} {s : Settlement}
    (h : (runWatch exp t l1).settled = some s) (l2 : List WatchInput) :
    runWatch exp t (l1 ++ l2) = runWatch exp t l1 := by
  rw [runWatch_append]
  exact foldl_stepWatch_of_settled (by simp [h]) l2

theorem foldl_stepWatch_inert {exp : ExpectedTuple} {t : Nat} :
    ∀ {pre : List WatchInput}, (∀ i ∈ pre, inertInput exp i = true) →
      pre.foldl (stepWatch exp t) initialWatchState = initialWatchState
  | [], _ => rfl
  | i :: pre, h => by
    have hi : inertInput exp i = true := h i (List.mem_cons_self i pre)
    have hstep : stepWatch exp t initialWatchState i = initialWatchState := by
      cases i with
      | batch logs =>
        have : processBatch exp logs = none := by
          simpa [inertInput, Option.isNone_iff_eq_none] using hi
        simp [stepWatch, initialWatchState, this]
      | watcherError msg => simp [inertInput] at hi
      | timerFire => simp [inertInput] at hi
    rw [List.foldl_cons, hstep]
    exact foldl_stepWatch_inert fun j hj => h j (List.mem_cons_of_mem i hj)

theorem stepWatch_cleanup {exp : ExpectedTuple} {t : Nat} {s : WatchState}
    (h : s.settled.isSome → s.unwatchCalled = true ∧ s.timerCleared = true)
    (i : WatchInput) :
    (stepWatch exp t s i).settled.isSome →
      (stepWatch exp t s i).unwatchCalled = true ∧
      (stepWatch exp t s i).timerCleared = true := by
  by_cases hs : s.settled.isSome
  · rw [stepWatch_of_settled hs]; exact fun _ => h hs
  · cases i with
    | batch logs =>
      cases hpb : processBatch exp logs with
      | none => simp [stepWatch, hs, hpb]
      | some p => simp [stepWatch, hs, hpb]
    | watcherError msg => simp [stepWatch, hs]
    | timerFire => simp [stepWatch, hs]

theorem foldl_stepWatch_cleanup {exp : ExpectedTuple} {t : Nat} :
    ∀ (l : List WatchInput) (s : WatchState),
      (s.settled.isSome → s.unwatchCalled = true ∧ s.timerCleared = true) →
      (l.foldl (stepWatch exp t) s).settled.isSome →
        (l.foldl (stepWatch exp t) s).unwatchCalled = true ∧
        (l.foldl (stepWatch exp t) s).timerCleared = true
  | [], s, h => h
  | i :: l, s, h => by
    rw [List.foldl_cons]
    exact foldl_stepWatch_cleanup l (stepWatch exp t s i) (stepWatch_cleanup h i)

theorem foldl_resolved_source {exp : ExpectedTuple} {t : Nat} {p : ParsedEvent} :
    ∀ (l : List WatchInput) (s : WatchState),
      (l.foldl (stepWatch exp t) s).settled = some (.resolved p) →
      s.settled = some (.resolved p) ∨
        ∃ logs, WatchInput.batch logs ∈ l ∧ processBatch exp logs = some p
  | [], _, h => Or.inl h
  | i :: l, s, h => by
    rw [List.foldl_cons] at h
    rcases foldl_resolved_source l (stepWatch exp t s i) h with h' | ⟨logs, hm, hpb⟩
    · by_cases hs : s.settled.isSome
      · rw [stepWatch_of_settled hs] at h'
        exact Or.inl h'
      · cases i with
        | batch logs =>
          cases hpb : processBatch exp logs with
          | none =>
            simp only [stepWatch, hs, if_false, hpb] at h'
            exact Or.inl h'
          | some q =>
            simp only [stepWatch, hs, if_false, hpb] at h'
            obtain rfl : q = p := by
              cases h'
              rfl
            exact Or.inr ⟨logs, List.mem_cons_self .., hpb⟩
        | watcherError msg =>
          simp only [stepWatch, hs, if_false] at h'
          cases h'
        | timerFire =>
          simp only [stepWatch, hs, if_false] at h'
          cases h'
    · exact Or.inr ⟨logs, List.mem_cons_of_mem i hm, hpb⟩

theorem processBatch_eq_head_filterMap (exp : ExpectedTuple) :
    ∀ logs : List RawLog,
      processBatch exp logs = (logs.filterMap (resolveCandidate exp)).head?
  | [] => rfl
  | l :: ls => by
    cases l with
    | unparseable =>
      simp [processBatch, parseLog, resolveCandidate, List.filterMap_cons,
        processBatch_eq_head_filterMap exp ls]
    | parsed p =>
      cases hd : extractComplete p with
      | none =>
        simp [processBatch, parseLog, resolveCandidate, List.filterMap_cons, hd,
          processBatch_eq_head_filterMap exp ls]
      | some d =>
        cases htm : tupleMatches exp d with
        | false =>
          simp [processBatch, parseLog, resolveCandidate, List.filterMap_cons,
            hd, htm, processBatch_eq_head_filterMap exp ls]
        | true =>
          simp [processBatch, parseLog, resolveCandidate, List.filterMap_cons,
            hd, htm]

theorem tupleMatches_eq_true_iff (exp : ExpectedTuple) (d : EventData) :
    tupleMatches exp d = true ↔
      (jsToLower d.kpiOwner = jsToLower exp.ownerAddress ∧
       d.kpiTypeId = exp.kpiTypeId ∧
       d.reportingYear = exp.reportingYear ∧
       d.value = exp.value ∧
       jsToLower d.metadataCid = jsToLower exp.metadataCid) := by
  simp only [tupleMatches, Bool.and_eq_true, beq_iff_eq]
  tauto

theorem resolveCandidate_parsed_iff (exp : ExpectedTuple) (p : ParsedEvent) :
    resolveCandidate exp (.parsed p) = some p ↔
      ∃ d, extractComplete p = some d ∧
        jsToLower d.kpiOwner = jsToLower exp.ownerAddress ∧
        d.kpiTypeId = exp.kpiTypeId ∧
        d.reportingYear = exp.reportingYear ∧
        d.value = exp.value ∧
        jsToLower d.metadataCid = jsToLower exp.metadataCid := by
  cases hd : extractComplete p with
  | none => simp [resolveCandidate, parseLog, hd]
  | some d =>
    cases htm : tupleMatches exp d with
    | false =>
      simp only [resolveCandidate, parseLog, hd, htm, if_false]
      constructor
      · intro h
        cases h
      · rintro ⟨d', hd', hfive⟩
        injection hd' with hdd
        subst hdd
        rw [← tupleMatches_eq_true_iff] at hfive
        exact absurd hfive (by simp [htm])
    | true =>
      simp only [resolveCandidate, parseLog, hd, htm, if_true]
      constructor
      · intro _
        exact ⟨d, rfl, (tupleMatches_eq_true_iff exp d).mp htm⟩
      · intro _
        trivial

theorem processBatch_some_source {exp : ExpectedTuple} :
    ∀ {logs : List RawLog} {p : ParsedEvent}, processBatch exp logs = some p →
      RawLog.parsed p ∈ logs ∧
        ∃ d, extractComplete p = some d ∧ tupleMatches exp d = true
  | [], _, h => by cases h
  | l :: ls, p, h => by
    cases l with
    | unparseable =>
      simp only [processBatch, parseLog] at h
      obtain ⟨hm, hrest⟩ := processBatch_some_source h
      exact ⟨List.mem_cons_of_mem _ hm, hrest⟩
    | parsed q =>
      cases hd : extractComplete q with
      | none =>
        simp only [processBatch, parseLog, hd] at h
        obtain ⟨hm, hrest⟩ := processBatch_some_source h
        exact ⟨List.mem_cons_of_mem _ hm, hrest⟩
      | some d =>
        cases htm : tupleMatches exp d with
        | false =>
          simp only [processBatch, parseLog, hd, htm, if_false] at h
          obtain ⟨hm, hrest⟩ := processBatch_some_source h
          exact ⟨List.mem_cons_of_mem _ hm, hrest⟩
        | true =>
          simp only [processBatch, parseLog, hd, htm, if_true,
            Option.some.injEq] at h
          subst h
          exact ⟨List.mem_cons_self .., d, hd, htm⟩

/-! ## Claim theorems: event-confirmation matching -/

/-- C1: `waitForMatchingEvent` resolves its promise only on a log whose
decoded `(owner, kpiTypeId, reportingYear, value, metadataCid)` tuple
equals the expected tuple — `kpiTypeId`, `reportingYear` and `value`
compared numerically, the hex-string owner and CID compared
case-insensitively (after `toLowerCase()`) — so a log differing in any of
the five fields is never a resolve candidate; in the hook version the same
five fields are compared with the owner in zero-padded 32-byte topic form,
again case-insensitively. -/
theorem waitForMatchingEvent_resolves_iff_tuple_matches :
    (∀ (exp : ExpectedTuple) (p : ParsedEvent),
      resolveCandidate exp (.parsed p) = some p ↔
        ∃ d, extractComplete p = some d ∧
          jsToLower d.kpiOwner = jsToLower exp.ownerAddress ∧
          d.kpiTypeId = exp.kpiTypeId ∧
          d.reportingYear = exp.reportingYear ∧
          d.value = exp.value ∧
          jsToLower d.metadataCid = jsToLower exp.metadataCid) ∧
    (∀ (exp : ExpectedTuple) (logs : List RawLog) (p : ParsedEvent),
      processBatch exp logs = some p →
        RawLog.parsed p ∈ logs ∧
          ∃ d, extractComplete p = some d ∧
            jsToLower d.kpiOwner = jsToLower exp.ownerAddress ∧
            d.kpiTypeId = exp.kpiTypeId ∧
            d.reportingYear = exp.reportingYear ∧
            d.value = exp.value ∧
            jsToLower d.metadataCid = jsToLower exp.metadataCid) ∧
    (∀ (exp : ExpectedTuple) (t : Nat) (inputs : List WatchInput)
        (p : ParsedEvent),
      (runWatch exp t inputs).settled = some (.resolved p) →
        ∃ logs, WatchInput.batch logs ∈ inputs ∧
          processBatch exp logs = some p) ∧
    (∀ (exp : ExpectedTuple) (d : EventData),
      hookTupleMatches exp d = true ↔
        (jsToLower d.kpiOwner = jsToLower (hexZeroPad (jsToLower exp.ownerAddress) 32) ∧
         d.kpiTypeId = exp.kpiTypeId ∧
         d.reportingYear = exp.reportingYear ∧
         d.value = exp.value ∧
         jsToLower d.metadataCid = jsToLower exp.metadataCid)) := by
  refine ⟨resolveCandidate_parsed_iff, ?_, ?_, ?_⟩
  · intro exp logs p h
    obtain ⟨hm, d, hd, htm⟩ := processBatch_some_source h
    exact ⟨hm, d, hd, (tupleMatches_eq_true_iff exp d).mp htm⟩
  · intro exp t inputs p h
    rcases foldl_resolved_source inputs initialWatchState h with h' | hsrc
    · exact absurd h' (by simp [initialWatchState])
    · exact hsrc
  · intro exp d
    simp only [hookTupleMatches, hookOwnerMatch, Bool.and_eq_true, beq_iff_eq]
    tauto

/-- Closed witness for C1: a concrete batch whose single log matches the
expected tuple up to hex case resolves with that log. -/
theorem waitForMatchingEvent_resolves_iff_tuple_matches_witness :
    RawLog.parsed ⟨some "0xAB", some 1, some 2024, some 100, some "0xcd",
        some 5, some 1⟩ ∈
      [RawLog.parsed ⟨some "0xAB", some 1, some 2024, some 100, some "0xcd",
        some 5, some 1⟩] ∧
    ∃ d, extractComplete ⟨some "0xAB", some 1, some 2024, some 100,
        some "0xcd", some 5, some 1⟩ = some d ∧
      jsToLower d.kpiOwner =
        jsToLower (ExpectedTuple.mk "0xab" 1 2024 100 "0xCD").ownerAddress ∧
      d.kpiTypeId = 1 ∧ d.reportingYear = 2024 ∧ d.value = 100 ∧
      jsToLower d.metadataCid =
        jsToLower (ExpectedTuple.mk "0xab" 1 2024 100 "0xCD").metadataCid :=
  waitForMatchingEvent_resolves_iff_tuple_matches.2.1
    ⟨"0xab", 1, 2024, 100, "0xCD"⟩ _ _ (by decide)

/-- C2: with the default 90000 ms timeout, a run in which no input settles
the promise before the timer fires rejects with the timeout error, whose
message names the expected KPI type id and reporting year. -/
theorem waitForMatchingEvent_default_timeout_rejects
    (exp : ExpectedTuple) (pre : List WatchInput)
    (h : ∀ i ∈ pre, inertInput exp i = true) :
    defaultTimeoutMs = 90000 ∧
    (runWatch exp defaultTimeoutMs (pre ++ [.timerFire])).settled =
      some (.rejected
        (.timeoutErr defaultTimeoutMs exp.kpiTypeId exp.reportingYear)) ∧
    timeoutMessage defaultTimeoutMs exp.kpiTypeId exp.reportingYear =
      "Timeout (90s) waiting for KpiVersionSubmitted event for KPI Type ID: " ++
        toString exp.kpiTypeId ++ ", Year: " ++ toString exp.reportingYear := by
  refine ⟨rfl, ?_, rfl⟩
  rw [runWatch_append]
  show (stepWatch exp defaultTimeoutMs (runWatch exp defaultTimeoutMs pre)
    WatchInput.timerFire).settled = _
  rw [runWatch, foldl_stepWatch_inert h]
  rfl

/-- Closed witness for C2: a run with one non-matching batch followed by
the timer firing rejects with the timeout error. -/
theorem waitForMatchingEvent_default_timeout_rejects_witness :
    (runWatch ⟨"0xab", 1, 2024, 100, "0xcd"⟩ defaultTimeoutMs
        ([.batch [.unparseable]] ++ [.timerFire])).settled =
      some (.rejected (.timeoutErr defaultTimeoutMs 1 2024)) :=
  (waitForMatchingEvent_default_timeout_rejects ⟨"0xab", 1, 2024, 100, "0xcd"⟩
    [.batch [.unparseable]] (by decide)).2.1

/-- C3: on every path by which the promise settles — resolution, watcher
error, or timeout — `cleanup()` has run, so the subscription is
deregistered (`unwatch()` called) and the timer cleared. -/
theorem waitForMatchingEvent_cleanup_on_settlement
    (exp : ExpectedTuple) (t : Nat) (inputs : List WatchInput)
    (h : (runWatch exp t inputs).settled.isSome) :
    (runWatch exp t inputs).unwatchCalled = true ∧
    (runWatch exp t inputs).timerCleared = true :=
  foldl_stepWatch_cleanup inputs initialWatchState
    (fun h' => absurd h' (by simp [initialWatchState])) h

/-- Closed witness for C3: a run settled by the timeout has deregistered
the subscription and cleared the timer. -/
theorem waitForMatchingEvent_cleanup_on_settlement_witness :
    (runWatch ⟨"0xab", 1, 2024, 100, "0xcd"⟩ 90000 [.timerFire]).unwatchCalled
        = true ∧
    (runWatch ⟨"0xab", 1, 2024, 100, "0xcd"⟩ 90000 [.timerFire]).timerCleared
        = true :=
  waitForMatchingEvent_cleanup_on_settlement ⟨"0xab", 1, 2024, 100, "0xcd"⟩
    90000 [.timerFire] (by decide)

/-- C4: the promise settles at most once (a settled run is unchanged by
further inputs); within a batch, the `onEvents` loop resolves with the
first resolve candidate in arrival order; logs that fail ABI decoding or
have incomplete fields are never candidates; a batch with no candidate
leaves the state untouched; and after inert traffic the settlement is
exactly the first candidate of the next batch. -/
theorem waitForMatchingEvent_single_settlement_first_match :
    (∀ (exp : ExpectedTuple) (t : Nat) (l1 l2 : List WatchInput)
        (s : Settlement),
      (runWatch exp t l1).settled = some s →
      (runWatch exp t (l1 ++ l2)).settled = some s) ∧
    (∀ (exp : ExpectedTuple) (logs : List RawLog),
      processBatch exp logs = (logs.filterMap (resolveCandidate exp)).head?) ∧
    (∀ exp : ExpectedTuple, resolveCandidate exp .unparseable = none) ∧
    (∀ (exp : ExpectedTuple) (p : ParsedEvent), extractComplete p = none →
      resolveCandidate exp (.parsed p) = none) ∧
    (∀ (exp : ExpectedTuple) (t : Nat) (s : WatchState) (logs : List RawLog),
      processBatch exp logs = none → stepWatch exp t s (.batch logs) = s) ∧
    (∀ (exp : ExpectedTuple) (t : Nat) (pre : List WatchInput)
        (logs : List RawLog),
      (∀ i ∈ pre, inertInput exp i = true) →
      (runWatch exp t (pre ++ [.batch logs])).settled =
        (processBatch exp logs).map Settlement.resolved) := by
  refine ⟨?_, processBatch_eq_head_filterMap, fun _ => rfl, ?_, ?_, ?_⟩
  · intro exp t l1 l2 s h
    rw [runWatch_settled_mono h l2]
    exact h
  · intro exp p h
    simp [resolveCandidate, parseLog, h]
  · intro exp t s logs h
    by_cases hs : s.settled.isSome <;> simp [stepWatch, hs, h]
  · intro exp t pre logs h
    rw [runWatch_append]
    show (stepWatch exp t (runWatch exp t pre) (WatchInput.batch logs)).settled
      = _
    rw [runWatch, foldl_stepWatch_inert h]
    cases hpb : processBatch exp logs <;>
      simp [stepWatch, initialWatchState, hpb]

/-- Closed witness for C4: after an inert unparseable batch, a batch whose
first log matches resolves with that first log. -/
theorem waitForMatchingEvent_single_settlement_first_match_witness :
    (runWatch ⟨"0xab", 1, 2024, 100, "0xcd"⟩ 90000
        ([.batch [.unparseable]] ++
          [.batch [.parsed ⟨some "0xab", some 1, some 2024, some 100,
            some "0xcd", some 5, some 1⟩]])).settled =
      (processBatch ⟨"0xab", 1, 2024, 100, "0xcd"⟩
        [.parsed ⟨some "0xab", some 1, some 2024, some 100, some "0xcd",
          some 5, some 1⟩]).map Settlement.resolved :=
  waitForMatchingEvent_single_settlement_first_match.2.2.2.2.2
    ⟨"0xab", 1, 2024, 100, "0xcd"⟩ 90000 [.batch [.unparseable]] _ (by decide)

/-! ## Helper lemmas: the sequential submission loop -/

theorem sendTx_mem_runSubmissionLoop :
    ∀ (rs : List StepResult) (i j : Nat),
      SubAction.sendTx j ∈ runSubmissionLoop i rs →
      i ≤ j ∧ ∀ k, i ≤ k → k < j → rs[k - i]? = some .confirmed
  | [], i, j, h => absurd h (List.not_mem_nil _)
  | r :: rest, i, j, h => by
    have base : j = i →
        i ≤ j ∧ ∀ k, i ≤ k → k < j → (r :: rest)[k - i]? = some .confirmed :=
      fun hj => hj ▸ ⟨Nat.le_refl j, fun k hik hkj => absurd hkj (by omega)⟩
    cases r with
    | sendFailed =>
      simp only [runSubmissionLoop] at h
      exact base (by simpa [stepTrace] using h)
    | confirmFailed =>
      simp only [runSubmissionLoop] at h
      exact base (by simpa [stepTrace] using h)
    | confirmed =>
      simp only [runSubmissionLoop] at h
      rcases List.mem_append.mp h with hstep | htail
      · exact base (by simpa [stepTrace] using hstep)
      · obtain ⟨hij, hall⟩ := sendTx_mem_runSubmissionLoop rest (i + 1) j htail
        refine ⟨by omega, ?_⟩
        intro k hik hkj
        by_cases hk : k = i
        · subst hk
          simp [Nat.sub_self]
        · have h2 : k - i = (k - (i + 1)) + 1 := by omega
          rw [h2, List.getElem?_cons_succ]
          exact hall k (by omega) hkj

theorem sendTx_succ_after_endWatch :
    ∀ (rs : List StepResult) (i j : Nat), i ≤ j →
      SubAction.sendTx (j + 1) ∈ runSubmissionLoop i rs →
      ∃ t1 t2, runSubmissionLoop i rs = t1 ++ SubAction.endWatch j :: t2 ∧
        SubAction.sendTx (j + 1) ∈ t2
  | [], _, _, _, h => absurd h (List.not_mem_nil _)
  | r :: rest, i, j, hij, h => by
    cases r with
    | sendFailed =>
      simp only [runSubmissionLoop] at h
      have : j + 1 = i := by simpa [stepTrace] using h
      omega
    | confirmFailed =>
      simp only [runSubmissionLoop] at h
      have : j + 1 = i := by simpa [stepTrace] using h
      omega
    | confirmed =>
      simp only [runSubmissionLoop] at h
      rcases List.mem_append.mp h with hstep | htail
      · have : j + 1 = i := by simpa [stepTrace] using hstep
        omega
      · by_cases hj : i = j
        · subst hj
          refine ⟨[SubAction.sendTx i, SubAction.startWatch i],
            runSubmissionLoop (i + 1) rest, ?_, htail⟩
          simp [runSubmissionLoop, stepTrace]
        · obtain ⟨t1, t2, heq, hmem⟩ :=
            sendTx_succ_after_endWatch rest (i + 1) j (by omega) htail
          refine ⟨stepTrace i .confirmed ++ t1, t2, ?_, hmem⟩
          simp only [runSubmissionLoop, heq, List.append_assoc]

theorem openWatches_append (a b : List SubAction) :
    openWatches (a ++ b) = openWatches a + openWatches b := by
  simp [openWatches]

theorem openWatches_take_runSubmissionLoop :
    ∀ (rs : List StepResult) (i n : Nat),
      0 ≤ openWatches ((runSubmissionLoop i rs).take n) ∧
      openWatches ((runSubmissionLoop i rs).take n) ≤ 1
  | [], i, n => by simp [runSubmissionLoop, openWatches]
  | r :: rest, i, n => by
    cases r with
    | sendFailed =>
      simp only [runSubmissionLoop]
      match n with
      | 0 => simp [openWatches]
      | n + 1 => simp [stepTrace, openWatches, watchDelta]
    | confirmFailed =>
      simp only [runSubmissionLoop]
      match n with
      | 0 => simp [openWatches]
      | 1 => simp [stepTrace, openWatches, watchDelta]
      | 2 => simp [stepTrace, openWatches, watchDelta]
      | n + 3 => simp [stepTrace, openWatches, watchDelta]
    | confirmed =>
      simp only [runSubmissionLoop]
      rw [List.take_append_eq_append_take, openWatches_append]
      match n with
      | 0 => simp [openWatches]
      | 1 => simp [stepTrace, openWatches, watchDelta]
      | 2 => simp [stepTrace, openWatches, watchDelta]
      | n + 3 =>
        have hlen : (stepTrace i .confirmed).length = 3 := by simp [stepTrace]
        have hfull : (stepTrace i .confirmed).take (n + 3) =
            stepTrace i .confirmed :=
          List.take_of_length_le (by omega)
        have h0 : openWatches (stepTrace i .confirmed) = 0 := by
          simp [stepTrace, openWatches, watchDelta]
        rw [hfull, h0, hlen]
        have := openWatches_take_runSubmissionLoop rest (i + 1) (n + 3 - 3)
        constructor <;> omega

/-! ## Claim theorems: the sequential submission loop -/

/-- C6: transactions are processed strictly sequentially — `sendTx j`
occurs only when every earlier payload's send and event confirmation both
resolved; the event watch of payload `j` has settled strictly before
`sendTx (j+1)` appears in the trace; at most one event watch created by
the loop is pending at any trace position; and a failed send or
confirmation aborts all remaining payloads. -/
theorem submission_loop_sequential :
    (∀ (rs : List StepResult) (j : Nat),
      SubAction.sendTx j ∈ runSubmissionLoop 0 rs →
      ∀ k, k < j → rs[k]? = some .confirmed) ∧
    (∀ (rs : List StepResult) (j : Nat),
      SubAction.sendTx (j + 1) ∈ runSubmissionLoop 0 rs →
      ∃ t1 t2, runSubmissionLoop 0 rs = t1 ++ SubAction.endWatch j :: t2 ∧
        SubAction.sendTx (j + 1) ∈ t2) ∧
    (∀ (rs : List StepResult) (n : Nat),
      0 ≤ openWatches ((runSubmissionLoop 0 rs).take n) ∧
      openWatches ((runSubmissionLoop 0 rs).take n) ≤ 1) ∧
    (∀ (rs : List StepResult) (m : Nat) (r : StepResult),
      rs[m]? = some r → r ≠ .confirmed →
      ∀ j, m < j → SubAction.sendTx j ∉ runSubmissionLoop 0 rs) := by
  refine ⟨?_, ?_, fun rs n => openWatches_take_runSubmissionLoop rs 0 n, ?_⟩
  · intro rs j h k hk
    simpa using (sendTx_mem_runSubmissionLoop rs 0 j h).2 k (Nat.zero_le k) hk
  · intro rs j h
    exact sendTx_succ_after_endWatch rs 0 j (Nat.zero_le j) h
  · intro rs m r hm hr j hmj hmem
    have := (sendTx_mem_runSubmissionLoop rs 0 j hmem).2 m (Nat.zero_le m) hmj
    rw [Nat.sub_zero, hm] at this
    exact hr (by injection this)

/-- Closed witness for C6: in a run whose first payload confirmed, the
presence of `sendTx 1` in the trace certifies that outcome. -/
theorem submission_loop_sequential_witness :
    ([StepResult.confirmed, StepResult.sendFailed] : List StepResult)[0]? =
      some .confirmed :=
  submission_loop_sequential.1 [.confirmed, .sendFailed] 1 (by decide) 0
    (by decide)

/-! ## Claim theorems: submission payload encoding -/

/-- C5 counterexample: with form value `v = 1` entered for the current
year 2024, the original `handleSubmit` encodes the uint256 value as
`Math.round(1 * 100) = 100` while the refactored `useKpiSubmission` hook
encodes `Math.round(1) = 1`, so the two `submitKpiVersion` payload tuples
differ in the `value` parameter. -/
theorem handleSubmit_hook_payload_values_differ :
    handleSubmitPayloads 2024 (some 1) none ≠
      submitKpiDataPayloads 2024 (some 1) none ∧
    (handleSubmitPayloads 2024 (some 1) none).map TxPayload.value = [100] ∧
    (submitKpiDataPayloads 2024 (some 1) none).map TxPayload.value = [1] := by
  have h1 : jsRound (100 : ℚ) = 100 := by
    rw [jsRound_eq_floor]
    norm_num
  have h2 : jsRound (1 : ℚ) = 1 := by
    rw [jsRound_eq_floor]
    norm_num
  refine ⟨?_, ?_, ?_⟩ <;>
    simp [handleSubmitPayloads, submitKpiDataPayloads, kpiIdToNumericIdMap,
      ghgTotalKpiId, h1, h2]

/-- C5 amended: for equal parsed form inputs the two implementations
produce payload lists that agree in `kpiTypeId`, `reportingYear` and
`metadataCid`, but the original encodes the value as `Math.round(100 * v)`
where the hook encodes `Math.round(v)`: the original run equals the hook
run applied to the inputs pre-scaled by 100. -/
theorem handleSubmit_hook_payloads_agree_up_to_scaling
    (year : Int) (cur prior : Option ℚ) :
    handleSubmitPayloads year cur prior =
      submitKpiDataPayloads year (cur.map fun v => v * 100)
        (prior.map fun v => v * 100) ∧
    (handleSubmitPayloads year cur prior).map
        (fun p => (p.kpiTypeId, p.reportingYear, p.metadataCid)) =
      (submitKpiDataPayloads year cur prior).map
        (fun p => (p.kpiTypeId, p.reportingYear, p.metadataCid)) := by
  constructor <;> cases cur <;> cases prior <;> rfl

/-- C9: both versions of `handleSubmit` stop before preparing or sending
any payload — returning only an `"Error:"`-prefixed status and leaving
the form untouched — whenever no wallet is connected, the reporting year
is outside `[1900, 2200]`, or (hook version) the contract is not
initialized. -/
theorem handleSubmit_guard_blocks_submission :
    (∀ (ua : Option String) (year : Int) (cur prior : Option ℚ) (ok : Bool),
      ua = none ∨ year < 1900 ∨ 2200 < year →
        ∃ msg, handleSubmitRun ua year cur prior ok = ⟨msg, [], false⟩ ∧
          msg.data.take 6 = "Error:".data) ∧
    (∀ (ua : Option String) (year : Int) (ready : Bool) (cur prior : Option ℚ)
        (ok : Bool),
      ua = none ∨ year < 1900 ∨ 2200 < year ∨ ready = false →
        ∃ msg,
          handleSubmitRunHook ua year ready cur prior ok = ⟨msg, [], false⟩ ∧
          msg.data.take 6 = "Error:".data) := by
  constructor
  · intro ua year cur prior ok h
    by_cases hua : strFalsy ua = true
    · exact ⟨"Error: Please connect your wallet first to submit data.",
        by simp [handleSubmitRun, handleSubmitGuard, hua], by decide⟩
    · have hyear : year < 1900 ∨ 2200 < year := by
        rcases h with h | h | h
        · exact absurd (by simp [h, strFalsy]) hua
        · exact Or.inl h
        · exact Or.inr h
      have hcond : year = 0 ∨ year < 1900 ∨ year > 2200 := by omega
      refine ⟨"Error: Please enter a valid Reporting Year.", ?_, by decide⟩
      simp [handleSubmitRun, handleSubmitGuard, hua, hcond]
  · intro ua year ready cur prior ok h
    by_cases hua : strFalsy ua = true
    · exact ⟨"Error: Please connect your wallet to submit data.",
        by simp [handleSubmitRunHook, handleSubmitGuardHook, hua], by decide⟩
    · by_cases hy : year = 0 ∨ year < 1900 ∨ year > 2200
      · refine ⟨"Error: Please enter a valid reporting year.", ?_, by decide⟩
        simp [handleSubmitRunHook, handleSubmitGuardHook, hua, hy]
      · have hready : ready = false := by
          rcases h with h | h | h | h
          · exact absurd (by simp [h, strFalsy]) hua
          · exact absurd (Or.inr (Or.inl h)) hy
          · exact absurd (Or.inr (Or.inr h)) hy
          · exact h
        refine ⟨"Error: Contract not loaded or initialized. Please wait.",
          ?_, by decide⟩
        simp [handleSubmitRunHook, handleSubmitGuardHook, hua, hy, hready]

/-- Closed witness for C9: with no wallet connected, the original run
errors without payloads; with the contract uninitialized, the hook run
errors without payloads. -/
theorem handleSubmit_guard_blocks_submission_witness :
    (∃ msg, handleSubmitRun none 2024 none none true = ⟨msg, [], false⟩ ∧
      msg.data.take 6 = "Error:".data) ∧
    (∃ msg, handleSubmitRunHook (some "0xab") 2024 false none none true =
        ⟨msg, [], false⟩ ∧ msg.data.take 6 = "Error:".data) :=
  ⟨handleSubmit_guard_blocks_submission.1 none 2024 none none true (Or.inl rfl),
   handleSubmit_guard_blocks_submission.2 (some "0xab") 2024 false none none
     true (Or.inr (Or.inr (Or.inr rfl)))⟩

/-! ## Helper lemmas: the history loader's year range -/

theorem yearsToQuery_length (cy : Int) : (yearsToQuery cy).length = 11 := by
  simp only [yearsToQuery, startYear, List.length_map, List.length_range]
  omega

theorem mem_yearsToQuery {cy y : Int} :
    y ∈ yearsToQuery cy ↔ startYear cy ≤ y ∧ y ≤ cy := by
  simp only [yearsToQuery, List.mem_map, List.mem_range]
  constructor
  · rintro ⟨i, hi, rfl⟩
    constructor <;> omega
  · rintro ⟨h1, h2⟩
    exact ⟨(y - startYear cy).toNat, by omega, by omega⟩

theorem nodup_yearsToQuery (cy : Int) : (yearsToQuery cy).Nodup :=
  List.Nodup.map (fun a b hab => by omega) (List.nodup_range _)

theorem count_yearsToQuery (cy y : Int) :
    (yearsToQuery cy).count y =
      if startYear cy ≤ y ∧ y ≤ cy then 1 else 0 := by
  by_cases h : startYear cy ≤ y ∧ y ≤ cy
  · rw [if_pos h]
    exact List.count_eq_one_of_mem (nodup_yearsToQuery cy)
      (mem_yearsToQuery.mpr h)
  · rw [if_neg h]
    exact List.count_eq_zero_of_not_mem fun hm => h (mem_yearsToQuery.mp hm)

theorem historyReadCalls_length (addresses : List Hex) (cy : Int) :
    (historyReadCalls addresses 1 cy).length = 11 * addresses.length := by
  induction addresses with
  | nil => simp [historyReadCalls]
  | cons a rest ih =>
    simp only [historyReadCalls, List.flatMap_cons, List.length_append,
      List.length_map, yearsToQuery_length, List.length_cons] at ih ⊢
    omega

theorem countP_pair_historyReadCalls (addresses : List Hex) (cy : Int)
    (a : Hex) (y : Int) :
    (historyReadCalls addresses 1 cy).countP
        (fun c => c.address == a && c.year == y) =
      addresses.count a * (yearsToQuery cy).count y := by
  induction addresses with
  | nil => simp [historyReadCalls]
  | cons a' rest ih =>
    simp only [historyReadCalls, List.flatMap_cons, List.countP_append] at ih ⊢
    rw [List.countP_map]
    by_cases ha : a' = a
    · subst ha
      have hinner :
          (fun c : ReadCall => c.address == a' && c.year == y) ∘
              (fun y' : Int => ReadCall.mk "getLatestKpiVersion" a' 1 y') =
            fun y' : Int => y' == y := by
        funext y'
        simp
      rw [hinner, ih, List.count_cons_self]
      show (yearsToQuery cy).countP (· == y) + _ = _
      rw [← List.count]
      ring
    · have hinner :
          (fun c : ReadCall => c.address == a && c.year == y) ∘
              (fun y' : Int => ReadCall.mk "getLatestKpiVersion" a' 1 y') =
            fun _ : Int => false := by
        funext y'
        simp [ha]
      rw [hinner, ih, List.count_cons_of_ne (by exact fun h => ha h.symm)]
      simp

/-! ## Claim theorems: investor page -/

/-- C7: for a non-empty list of valid company addresses the history loader
runs, issuing exactly one read-only `getLatestKpiVersion` call per list
entry and per year in the 11-year range `[currentYear - 10, currentYear]`
— `11 * (number of addresses)` calls in total, each carrying the
`getLatestKpiVersion` method and KPI id 1, and (for distinct addresses)
exactly one call per `(address, year)` pair in the range and none outside
it. -/
theorem history_loader_read_call_counts
    (isAddress : Hex → Bool) (addresses : List Hex) (currentYear : Int)
    (hne : addresses ≠ []) (hval : ∀ a ∈ addresses, isAddress a = true) :
    kpiHistoryGraphReadCalls isAddress addresses 1 currentYear =
      historyReadCalls addresses 1 currentYear ∧
    (historyReadCalls addresses 1 currentYear).length =
      11 * addresses.length ∧
    (∀ c ∈ historyReadCalls addresses 1 currentYear,
      c.method = "getLatestKpiVersion" ∧ c.kpiId = 1) ∧
    (addresses.Nodup → ∀ a ∈ addresses, ∀ y : Int,
      (historyReadCalls addresses 1 currentYear).countP
          (fun c => c.address == a && c.year == y) =
        if startYear currentYear ≤ y ∧ y ≤ currentYear then 1 else 0) := by
  refine ⟨?_, historyReadCalls_length addresses currentYear, ?_, ?_⟩
  · obtain ⟨a, ha⟩ := List.exists_mem_of_ne_nil addresses hne
    have hany : addresses.any isAddress = true :=
      List.any_eq_true.mpr ⟨a, ha, hval a ha⟩
    simp [kpiHistoryGraphReadCalls, hany]
  · intro c hc
    simp only [historyReadCalls] at hc
    obtain ⟨a, _, hc⟩ := List.mem_flatMap.mp hc
    obtain ⟨y, _, rfl⟩ := List.mem_map.mp hc
    exact ⟨rfl, rfl⟩
  · intro hnd a ha y
    rw [countP_pair_historyReadCalls, List.count_eq_one_of_mem hnd ha,
      one_mul, count_yearsToQuery]

/-- Closed witness for C7: one valid address yields 11 read calls. -/
theorem history_loader_read_call_counts_witness :
    (historyReadCalls ["0xab"] 1 2024).length = 11 * (["0xab"] : List Hex).length :=
  (history_loader_read_call_counts (fun _ => true) ["0xab"] 2024 (by decide)
    (by decide)).2.1

/-- C8: the history loader turns every non-result into `null` rather than
an error — the all-zero struct, a rejection whose message mentions "No
versions found for this KPI", any other rejection, and an `undefined`
result all yield no data point — and deleting a failed read from the
settled results leaves the built history unchanged, so a single failed
read never fails the whole load. -/
theorem history_read_failures_become_null :
    (∀ (addr : Hex) (year : Int),
      processReadResult addr year (.ok ⟨0, 0, zeroCid⟩) = none) ∧
    (∀ (addr : Hex) (year : Int) (msg : String),
      processReadResult addr year (.failed msg) = none) ∧
    (∀ (addr : Hex) (year : Int), processReadResult addr year .missing = none) ∧
    (∀ (rs1 rs2 : List (Hex × Int × ReadOutcome)) (addr : Hex) (year : Int)
        (msg : String),
      buildHistory (rs1 ++ (addr, year, .failed msg) :: rs2) =
        buildHistory (rs1 ++ rs2)) := by
  refine ⟨?_, fun _ _ _ => rfl, fun _ _ => rfl, ?_⟩
  · intro addr year
    simp [processReadResult]
  · intro rs1 rs2 addr year msg
    simp [buildHistory, List.filterMap_append, List.filterMap_cons,
      processReadResult]

/-- C10: the comma-separated entries of the investor address input
(trimmed, empties dropped) are partitioned exactly into the valid and
invalid lists by `isAddress`, and only `isAddress`-satisfying entries ever
reach a `getLatestKpiVersion` read or a rendered chart line. -/
theorem investor_address_partition :
    (∀ (isAddress : String → Bool) (s : String),
      (validAddresses isAddress s ++ invalidAddressesOf isAddress s).Perm
        (splitAddressInput s)) ∧
    (∀ (isAddress : String → Bool) (s a : String),
      a ∈ validAddresses isAddress s → isAddress a = true) ∧
    (∀ (isAddress : String → Bool) (s a : String),
      a ∈ invalidAddressesOf isAddress s → isAddress a = false) ∧
    (∀ (isAddress : String → Bool) (s : String) (currentYear : Int)
        (c : ReadCall),
      c ∈ kpiHistoryGraphReadCalls isAddress (validAddresses isAddress s) 1
            currentYear →
        isAddress c.address = true) ∧
    (∀ (isAddress : String → Bool) (s : String),
      chartLineAddresses isAddress (validAddresses isAddress s) =
        validAddresses isAddress s) := by
  have hmemval : ∀ (isAddress : String → Bool) (s a : String),
      a ∈ validAddresses isAddress s → isAddress a = true := by
    intro isAddress s a ha
    exact (List.mem_filter.mp ha).2
  refine ⟨?_, hmemval, ?_, ?_, ?_⟩
  · intro isAddress s
    exact List.filter_append_perm _ _
  · intro isAddress s a ha
    have := (List.mem_filter.mp ha).2
    simpa using this
  · intro isAddress s currentYear c hc
    rw [kpiHistoryGraphReadCalls] at hc
    split at hc
    · rw [historyReadCalls] at hc
      obtain ⟨a, ha, hc⟩ := List.mem_flatMap.mp hc
      obtain ⟨y, _, rfl⟩ := List.mem_map.mp hc
      exact hmemval isAddress s a ha
    · exact absurd hc (List.not_mem_nil c)
  · intro isAddress s
    rw [chartLineAddresses, validAddresses, List.filter_filter]
    simp

/-- Closed witness for C10: with a toy address predicate, the single valid
entry of a mixed input satisfies the predicate. -/
theorem investor_address_partition_witness :
    (fun a => a == "0xab") "0xab" = true :=
  investor_address_partition.2.1 (fun a => a == "0xab") "0xab, bad" "0xab"
    (by decide)

end FieldFlow
